import Mathlib

/-!
Verification of the two-player memory game (`src/memory_game1.py`).

The Python module mutates a single `game_data` dictionary; here every
operation is a pure function from a `GameData` state to a new state.
`random.shuffle` is modelled by an explicit `shuffle : List Char → List Char`
parameter; theorems that depend on its behaviour take the permutation
contract as a hypothesis.  The board dictionary, keyed by `(row, col)` pairs
inserted in row-major order, is modelled as a flat row-major `List Card`
indexed by `row * columns + col`.  Fallible operations (Python `KeyError` /
`IndexError`, or the retry loop rejecting a pick) return `Option` / a `Bool`
success flag.
-/

/-- One cell of the board: the dictionary
`{'card': ..., 'flipped': ..., 'matched': ...}`. -/
structure Card where
  card : Char
  flipped : Bool
  matched : Bool
deriving DecidableEq, Repr

/-- The `score` dictionary `{'player1': ..., 'player2': ...}`. -/
structure Score where
  player1 : Nat
  player2 : Nat
deriving DecidableEq, Repr

/-- The two fixed player identifiers (the strings `'player1'` / `'player2'`). -/
inductive Player where
  | player1
  | player2
deriving DecidableEq, Repr

/-- The `game_data` dictionary built by `init_game`. -/
structure GameData where
  rows : Nat
  columns : Nat
  score : Score
  turn : Player
  game_over : Bool
  board : List Card
  move_history : List ((Nat × Nat) × (Nat × Nat))
deriving DecidableEq, Repr

/-- The fixed card list of `init_game`:
`['A','A','B','B','C','C','D','D','E','E','F','F','G','G','H','H']`. -/
def initial_cards : List Char :=
  ['A', 'A', 'B', 'B', 'C', 'C', 'D', 'D', 'E', 'E', 'F', 'F', 'G', 'G', 'H', 'H']

/-- `prepare_board(rows, columns, cards)`.  `random.shuffle(cards)` permutes the
caller's list in place; we model it by the `shuffle` parameter and return the
permuted list (the caller's list object after the call) alongside the board.
The loop reads `cards[index]` for `index = 0 .. rows*columns - 1`, so it
raises `IndexError` (modelled as `none`) when the list is too short, and
silently ignores surplus cards; there is no explicit length check. -/
def prepare_board (shuffle : List Char → List Char) (rows columns : Nat)
    (cards : List Char) : List Char × Option (List Card) :=
  let shuffled := shuffle cards
  (shuffled,
    if rows * columns ≤ shuffled.length then
      some ((shuffled.take (rows * columns)).map
        (fun v => { card := v, flipped := false, matched := false }))
    else
      none)

/-- `init_game()`: a 4×4 board from `initial_cards`, zero scores, player 1 to
move, game not over, empty move history. -/
def init_game (shuffle : List Char → List Char) : Option GameData :=
  match (prepare_board shuffle 4 4 initial_cards).2 with
  | some b =>
      some { rows := 4, columns := 4, score := { player1 := 0, player2 := 0 },
             turn := Player.player1, game_over := false, board := b,
             move_history := [] }
  | none => none

/-- One validation attempt of the `get_valid_card` retry loop at position
`p = (row, col)` (already 0-based).  In bounds and not yet flipped: flip the
card and accept.  Otherwise (out of bounds, or `Card already revealed`):
reject, leaving the state untouched — the Python loop just re-prompts. -/
def get_valid_card (g : GameData) (p : Nat × Nat) : GameData × Bool :=
  if p.1 < g.rows ∧ p.2 < g.columns then
    match g.board[p.1 * g.columns + p.2]? with
    | some c =>
        if c.flipped then (g, false)
        else ({ g with
                board := g.board.set (p.1 * g.columns + p.2)
                  { c with flipped := true } }, true)
    | none => (g, false)
  else (g, false)

/-- `match(game_data, guess1, guess2)` (named `match_cards`: `match` is a Lean
keyword).  Reads both cards' values; on equality marks both cells matched and
returns `true`, else returns `false` with the state unchanged.  A missing
board key would be a Python `KeyError`, modelled as `none`. -/
def match_cards (g : GameData) (guess1 guess2 : Nat × Nat) :
    Option (GameData × Bool) :=
  match g.board[guess1.1 * g.columns + guess1.2]?,
        g.board[guess2.1 * g.columns + guess2.2]? with
  | some c1, some c2 =>
      if c1.card = c2.card then
        some ({ g with
                board := (g.board.set (guess1.1 * g.columns + guess1.2)
                    { c1 with matched := true }).set
                  (guess2.1 * g.columns + guess2.2)
                  { c2 with matched := true } }, true)
      else
        some (g, false)
  | _, _ => none

/-- `update_score(game_data)`: increment the current player's score. -/
def update_score (g : GameData) : GameData :=
  match g.turn with
  | Player.player1 =>
      { g with score := { g.score with player1 := g.score.player1 + 1 } }
  | Player.player2 =>
      { g with score := { g.score with player2 := g.score.player2 + 1 } }

/-- `flip_back_cards(game_data, guess1, guess2)`: unconditionally set
`flipped = False` on both addressed cells (no guard of any kind; the second
write happens after the first, as in the Python).  A missing key would be a
`KeyError`, modelled as `none`. -/
def flip_back_cards (g : GameData) (guess1 guess2 : Nat × Nat) :
    Option GameData :=
  match g.board[guess1.1 * g.columns + guess1.2]? with
  | some c1 =>
      match (g.board.set (guess1.1 * g.columns + guess1.2)
          { c1 with flipped := false })[guess2.1 * g.columns + guess2.2]? with
      | some c2 =>
          some { g with
                 board := (g.board.set (guess1.1 * g.columns + guess1.2)
                     { c1 with flipped := false }).set
                   (guess2.1 * g.columns + guess2.2)
                   { c2 with flipped := false } }
      | none => none
  | none => none

/-- `check_game_over(game_data)`: if every cell's `matched` flag is true, set
`game_over = True`; otherwise return leaving the state untouched. -/
def check_game_over (g : GameData) : GameData :=
  if g.board.all (fun c => c.matched) then { g with game_over := true } else g

/-- The turn-switch expression of `play`:
`'player1' if turn == 'player2' else 'player2'`. -/
def switch_turn (t : Player) : Player :=
  if t = Player.player2 then Player.player1 else Player.player2

/-- Tail of one `play` loop iteration after the match/no-match branch:
append `(guess1, guess2)` to `move_history`, run `check_game_over`, and if the
game is not over switch the turn. -/
def finish_turn (g : GameData) (guess1 guess2 : Nat × Nat) : GameData :=
  let g1 := { g with move_history := g.move_history ++ [(guess1, guess2)] }
  let g2 := check_game_over g1
  if g2.game_over then g2 else { g2 with turn := switch_turn g2.turn }

/-- One completed iteration of the `play` loop in which the two
`get_valid_card` calls accept `guess1` and `guess2` (rejected attempts leave
the state untouched and re-prompt, so a completed turn is determined by its
two accepted picks).  `none` when either pick is rejected or a board key is
missing. -/
def play_turn (g : GameData) (guess1 guess2 : Nat × Nat) : Option GameData :=
  match get_valid_card g guess1 with
  | (_, false) => none
  | (g1, true) =>
      match get_valid_card g1 guess2 with
      | (_, false) => none
      | (g2, true) =>
          match match_cards g2 guess1 guess2 with
          | some (g3, true) => some (finish_turn (update_score g3) guess1 guess2)
          | some (g3, false) =>
              match flip_back_cards g3 guess1 guess2 with
              | some g4 => some (finish_turn g4 guess1 guess2)
              | none => none
          | none => none

/-- States reachable by the program: an `init_game` result (for any shuffle
satisfying the `random.shuffle` permutation contract) followed by any
sequence of completed turns of the `play` loop (which runs while
`game_over` is false). -/
inductive Reachable : GameData → Prop where
  | init (shuffle : List Char → List Char) (g : GameData)
      (hperm : (shuffle initial_cards).Perm initial_cards)
      (hg : init_game shuffle = some g) : Reachable g
  | step (g g' : GameData) (guess1 guess2 : Nat × Nat)
      (hr : Reachable g) (hnot : g.game_over = false)
      (hstep : play_turn g guess1 guess2 = some g') : Reachable g'

/-- Number of cells whose `matched` flag is set. -/
def matched_count (g : GameData) : Nat :=
  g.board.countP (fun c => c.matched)

/-- The inductive invariant of reachable states. -/
def GameInv (g : GameData) : Prop :=
  g.rows = 4 ∧ g.columns = 4 ∧
  (g.board.map (fun c => c.card)).Perm initial_cards ∧
  (∀ c ∈ g.board, c.matched = true → c.flipped = true) ∧
  2 * (g.score.player1 + g.score.player2) = matched_count g ∧
  g.game_over = g.board.all (fun c => c.matched)

/-- The `init_game` state for the identity shuffle, written out. -/
def demo_game : GameData :=
  { rows := 4, columns := 4, score := { player1 := 0, player2 := 0 },
    turn := Player.player1, game_over := false,
    board := initial_cards.map (fun v => { card := v, flipped := false, matched := false }),
    move_history := [] }

/-- Sanity: the identity shuffle produces exactly `demo_game`. -/
theorem init_game_id_demo : init_game id = some demo_game := by decide

/-! ### Basic list helpers -/

/-- Setting an index to the value it already holds is the identity. -/
theorem set_of_getElem?_eq {α : Type} {l : List α} {i : Nat} {a : α}
    (h : l[i]? = some a) : l.set i a = l := by
  induction l generalizing i with
  | nil => simp at h
  | cons x xs ih =>
      cases i with
      | zero =>
          simp only [List.getElem?_cons_zero, Option.some.injEq] at h
          simp [h]
      | succ n =>
          simp only [List.getElem?_cons_succ] at h
          simp [ih h]

/-- Overwriting a cell with a card of the same value leaves the list of card
values unchanged. -/
theorem map_card_set_of_eq {b : List Card} {i : Nat} {c a : Card}
    (h : b[i]? = some c) (hcard : a.card = c.card) :
    (b.set i a).map (fun x => x.card) = b.map (fun x => x.card) := by
  rw [List.map_set]
  apply set_of_getElem?_eq
  simp [List.getElem?_map, h, hcard]

/-- `List.countP_set` rephrased through `getElem?`. -/
theorem countP_set_of_some {α : Type} (p : α → Bool) {l : List α} {i : Nat}
    {c : α} (a : α) (h : l[i]? = some c) :
    (l.set i a).countP p =
      (l.countP p - if p c then 1 else 0) + if p a then 1 else 0 := by
  obtain ⟨hlt, hget⟩ := List.getElem?_eq_some.mp h
  rw [List.countP_set p l i a hlt, hget]

/-! ### Operation characterizations -/

/-- What a successful `get_valid_card` attempt amounts to. -/
theorem get_valid_card_success {g g1 : GameData} {p : Nat × Nat}
    (h : get_valid_card g p = (g1, true)) :
    ∃ c, p.1 < g.rows ∧ p.2 < g.columns ∧
      g.board[p.1 * g.columns + p.2]? = some c ∧ c.flipped = false ∧
      g1 = { g with board := g.board.set (p.1 * g.columns + p.2)
                      { c with flipped := true } } := by
  unfold get_valid_card at h
  split at h
  · rename_i hb
    split at h
    · rename_i c hc
      split at h
      · simp at h
      · rename_i hflip
        refine ⟨c, hb.1, hb.2, hc, by simpa using hflip, ?_⟩
        have hg1 := congrArg Prod.fst h
        simpa using hg1.symm
    · simp at h
  · simp at h

/-- `finish_turn` only appends to the history, recomputes `game_over`, and
switches the turn when the game is not over. -/
theorem finish_turn_spec (g : GameData) (p1 p2 : Nat × Nat) :
    (finish_turn g p1 p2).rows = g.rows ∧
    (finish_turn g p1 p2).columns = g.columns ∧
    (finish_turn g p1 p2).board = g.board ∧
    (finish_turn g p1 p2).score = g.score ∧
    (finish_turn g p1 p2).game_over =
      (g.game_over || g.board.all (fun c => c.matched)) ∧
    (finish_turn g p1 p2).turn =
      (if (g.game_over || g.board.all (fun c => c.matched)) = true then g.turn
       else switch_turn g.turn) ∧
    (finish_turn g p1 p2).move_history = g.move_history ++ [(p1, p2)] := by
  unfold finish_turn check_game_over
  by_cases hall : g.board.all (fun c => c.matched) = true
  · simp [hall]
  · simp only [Bool.not_eq_true] at hall
    by_cases hgo : g.game_over = true
    · simp [hall, hgo]
    · simp only [Bool.not_eq_true] at hgo
      simp [hall, hgo]

/-- `update_score` only increments the current player's score. -/
theorem update_score_spec (g : GameData) :
    (update_score g).rows = g.rows ∧ (update_score g).columns = g.columns ∧
    (update_score g).board = g.board ∧ (update_score g).turn = g.turn ∧
    (update_score g).game_over = g.game_over ∧
    (update_score g).move_history = g.move_history ∧
    (update_score g).score.player1 + (update_score g).score.player2 =
      g.score.player1 + g.score.player2 + 1 := by
  cases ht : g.turn <;> simp [update_score, ht] <;> omega

/-- `match_cards` evaluated on a board whose two reads are known. -/
theorem match_cards_spec {g : GameData} {p1 p2 : Nat × Nat} {c1 c2 : Card}
    (h1 : g.board[p1.1 * g.columns + p1.2]? = some c1)
    (h2 : g.board[p2.1 * g.columns + p2.2]? = some c2) :
    match_cards g p1 p2 =
      if c1.card = c2.card then
        some ({ g with
                board := (g.board.set (p1.1 * g.columns + p1.2)
                    { c1 with matched := true }).set
                  (p2.1 * g.columns + p2.2)
                  { c2 with matched := true } }, true)
      else some (g, false) := by
  unfold match_cards
  rw [h1, h2]

/-- `flip_back_cards` evaluated on a board whose two reads are known. -/
theorem flip_back_cards_spec {g : GameData} {p1 p2 : Nat × Nat} {c1 c2 : Card}
    (h1 : g.board[p1.1 * g.columns + p1.2]? = some c1)
    (h2 : (g.board.set (p1.1 * g.columns + p1.2)
        { c1 with flipped := false })[p2.1 * g.columns + p2.2]? = some c2) :
    flip_back_cards g p1 p2 =
      some { g with
             board := (g.board.set (p1.1 * g.columns + p1.2)
                 { c1 with flipped := false }).set
               (p2.1 * g.columns + p2.2)
               { c2 with flipped := false } } := by
  simp only [flip_back_cards, h1, h2]

/-- Two consecutive successful picks hit distinct cells, both previously
face-down, and flip exactly those two cells. -/
theorem two_picks_success {g g1 g2 : GameData} {p1 p2 : Nat × Nat}
    (h1 : get_valid_card g p1 = (g1, true))
    (h2 : get_valid_card g1 p2 = (g2, true)) :
    ∃ c1 c2,
      g.board[p1.1 * g.columns + p1.2]? = some c1 ∧ c1.flipped = false ∧
      g.board[p2.1 * g.columns + p2.2]? = some c2 ∧ c2.flipped = false ∧
      p1.1 * g.columns + p1.2 ≠ p2.1 * g.columns + p2.2 ∧
      g2 = { g with
             board := (g.board.set (p1.1 * g.columns + p1.2)
                 { c1 with flipped := true }).set
               (p2.1 * g.columns + p2.2)
               { c2 with flipped := true } } := by
  obtain ⟨c1, hrow1, hcol1, hc1, hf1, rfl⟩ := get_valid_card_success h1
  obtain ⟨c2, hrow2, hcol2, hc2, hf2, rfl⟩ := get_valid_card_success h2
  dsimp only at hc2 ⊢
  have hlt1 : p1.1 * g.columns + p1.2 < g.board.length :=
    (List.getElem?_eq_some.mp hc1).1
  by_cases hne : p1.1 * g.columns + p1.2 = p2.1 * g.columns + p2.2
  · exfalso
    rw [← hne, List.getElem?_set_self hlt1] at hc2
    cases hc2
    simp at hf2
  · rw [List.getElem?_set_ne hne] at hc2
    exact ⟨c1, c2, hc1, hf1, hc2, hf2, hne, rfl⟩

/-- Complete characterization of a successful `play_turn`: the two picks hit
distinct face-down cells; if the two values are equal both cells end up
revealed and matched and the score is bumped, otherwise the board returns to
exactly its previous state; either way the turn is finished. -/
theorem play_turn_success {g g' : GameData} {p1 p2 : Nat × Nat}
    (h : play_turn g p1 p2 = some g') :
    ∃ c1 c2,
      g.board[p1.1 * g.columns + p1.2]? = some c1 ∧ c1.flipped = false ∧
      g.board[p2.1 * g.columns + p2.2]? = some c2 ∧ c2.flipped = false ∧
      p1.1 * g.columns + p1.2 ≠ p2.1 * g.columns + p2.2 ∧
      ((c1.card = c2.card ∧
          g' = finish_turn (update_score { g with
                  board := (g.board.set (p1.1 * g.columns + p1.2)
                      { card := c1.card, flipped := true, matched := true }).set
                    (p2.1 * g.columns + p2.2)
                    { card := c2.card, flipped := true, matched := true } })
                p1 p2) ∨
       (¬ c1.card = c2.card ∧ g' = finish_turn g p1 p2)) := by
  unfold play_turn at h
  split at h
  · simp at h
  · rename_i g1 hgv1
    split at h
    · simp at h
    · rename_i g2 hgv2
      obtain ⟨c1, c2, hc1, hf1, hc2, hf2, hne, hg2⟩ := two_picks_success hgv1 hgv2
      refine ⟨c1, c2, hc1, hf1, hc2, hf2, hne, ?_⟩
      have hlt1 : p1.1 * g.columns + p1.2 < g.board.length :=
        (List.getElem?_eq_some.mp hc1).1
      have hlt2 : p2.1 * g.columns + p2.2 < g.board.length :=
        (List.getElem?_eq_some.mp hc2).1
      have hb1 : g2.board[p1.1 * g2.columns + p1.2]? =
          some { c1 with flipped := true } := by
        rw [hg2]; dsimp only
        rw [List.getElem?_set_ne (Ne.symm hne)]
        exact List.getElem?_set_self hlt1
      have hb2 : g2.board[p2.1 * g2.columns + p2.2]? =
          some { c2 with flipped := true } := by
        rw [hg2]; dsimp only
        exact List.getElem?_set_self (by simpa using hlt2)
      rw [match_cards_spec hb1 hb2] at h
      by_cases hcard : c1.card = c2.card
      · rw [if_pos (show ({ c1 with flipped := true } : Card).card =
            ({ c2 with flipped := true } : Card).card from hcard)] at h
        refine Or.inl ⟨hcard, ?_⟩
        subst hg2
        dsimp only at h
        simp only [Option.some.injEq] at h
        rw [List.set_comm _ _ _ (Ne.symm hne), List.set_set, List.set_set] at h
        exact h.symm
      · rw [if_neg (show ¬ ({ c1 with flipped := true } : Card).card =
            ({ c2 with flipped := true } : Card).card from hcard)] at h
        refine Or.inr ⟨hcard, ?_⟩
        have hne2 : p1.1 * g2.columns + p1.2 ≠ p2.1 * g2.columns + p2.2 := by
          rw [hg2]; exact hne
        have hb2' : (g2.board.set (p1.1 * g2.columns + p1.2)
            { card := c1.card, flipped := false,
              matched := c1.matched })[p2.1 * g2.columns + p2.2]? =
            some { card := c2.card, flipped := true, matched := c2.matched } := by
          rw [List.getElem?_set_ne hne2]
          exact hb2
        replace h : (match flip_back_cards g2 p1 p2 with
            | some g4 => some (finish_turn g4 p1 p2)
            | none => none) = some g' := h
        rw [flip_back_cards_spec hb1 hb2'] at h
        simp only [Option.some.injEq] at h
        have hboard : (g2.board.set (p1.1 * g2.columns + p1.2)
            { card := c1.card, flipped := false, matched := c1.matched }).set
            (p2.1 * g2.columns + p2.2)
            { card := c2.card, flipped := false, matched := c2.matched } =
            g.board := by
          rw [show ({ card := c1.card, flipped := false, matched := c1.matched } : Card) = c1 by rw [← hf1]]
          rw [show ({ card := c2.card, flipped := false, matched := c2.matched } : Card) = c2 by rw [← hf2]]
          rw [hg2]; dsimp only
          rw [List.set_comm _ _ _ (Ne.symm hne), List.set_set, List.set_set]
          rw [set_of_getElem?_eq (show (g.board.set (p1.1 * g.columns + p1.2)
                c1)[p2.1 * g.columns + p2.2]? = some c2 by
              rw [List.getElem?_set_ne hne]; exact hc2)]
          exact set_of_getElem?_eq hc1
        rw [hboard] at h
        have hgg : ({ g2 with board := g.board } : GameData) = g := by
          rw [hg2]
        rw [hgg] at h
        exact h.symm

/-- One completed turn of the `play` loop preserves the inductive invariant. -/
theorem play_turn_preserves_inv {g g' : GameData} {p1 p2 : Nat × Nat}
    (hinv : GameInv g) (hgo : g.game_over = false)
    (hstep : play_turn g p1 p2 = some g') : GameInv g' := by
  obtain ⟨hr, hcg, hperm, hmf, hscore, -⟩ := hinv
  obtain ⟨c1, c2, hc1, hf1, hc2, hf2, hne, hcase⟩ := play_turn_success hstep
  have hm1 : c1.matched = false := by
    by_contra hx
    simp only [Bool.not_eq_false] at hx
    have hfl := hmf c1 (List.getElem?_mem hc1) hx
    rw [hf1] at hfl
    simp at hfl
  have hm2 : c2.matched = false := by
    by_contra hx
    simp only [Bool.not_eq_false] at hx
    have hfl := hmf c2 (List.getElem?_mem hc2) hx
    rw [hf2] at hfl
    simp at hfl
  unfold matched_count at hscore
  rcases hcase with ⟨hcard, rfl⟩ | ⟨hcard, rfl⟩
  · -- the two values matched: both cells become revealed-and-matched,
    -- the current player's score goes up by one
    have h2read : (g.board.set (p1.1 * g.columns + p1.2)
        { card := c1.card, flipped := true,
          matched := true })[p2.1 * g.columns + p2.2]? = some c2 := by
      rw [List.getElem?_set_ne hne]; exact hc2
    obtain ⟨urows, ucols, uboard, -, ugo, -, usum⟩ :=
      update_score_spec { g with
        board := (g.board.set (p1.1 * g.columns + p1.2)
            { card := c1.card, flipped := true, matched := true }).set
          (p2.1 * g.columns + p2.2)
          { card := c2.card, flipped := true, matched := true } }
    obtain ⟨frows, fcols, fboard, fscore, fgo, -, -⟩ :=
      finish_turn_spec (update_score { g with
        board := (g.board.set (p1.1 * g.columns + p1.2)
            { card := c1.card, flipped := true, matched := true }).set
          (p2.1 * g.columns + p2.2)
          { card := c2.card, flipped := true, matched := true } }) p1 p2
    refine ⟨?_, ?_, ?_, ?_, ?_, ?_⟩
    · rw [frows, urows]; exact hr
    · rw [fcols, ucols]; exact hcg
    · rw [fboard, uboard]
      dsimp only
      rw [map_card_set_of_eq h2read
            (show ({ card := c2.card, flipped := true, matched := true } : Card).card = c2.card from rfl),
          map_card_set_of_eq hc1
            (show ({ card := c1.card, flipped := true, matched := true } : Card).card = c1.card from rfl)]
      exact hperm
    · rw [fboard, uboard]
      dsimp only
      intro x hx
      rcases List.mem_or_eq_of_mem_set hx with hx1 | rfl
      · rcases List.mem_or_eq_of_mem_set hx1 with hx2 | rfl
        · exact hmf x hx2
        · intro _; rfl
      · intro _; rfl
    · unfold matched_count
      rw [fboard, uboard, fscore, usum]
      dsimp only
      rw [countP_set_of_some _ _ h2read, countP_set_of_some _ _ hc1]
      simp only [hm1, hm2]
      simp
      omega
    · rw [fgo, fboard, uboard, ugo]
      dsimp only
      rw [hgo]
      simp
  · -- no match: the board is exactly what it was before the turn
    obtain ⟨frows, fcols, fboard, fscore, fgo, -, -⟩ := finish_turn_spec g p1 p2
    refine ⟨?_, ?_, ?_, ?_, ?_, ?_⟩
    · rw [frows]; exact hr
    · rw [fcols]; exact hcg
    · rw [fboard]; exact hperm
    · rw [fboard]; exact hmf
    · unfold matched_count
      rw [fboard, fscore]
      exact hscore
    · rw [fgo, fboard, hgo]
      simp

/-- `init_game` establishes the invariant, for any shuffle satisfying the
`random.shuffle` permutation contract. -/
theorem init_inv {shuffle : List Char → List Char} {g : GameData}
    (hperm : (shuffle initial_cards).Perm initial_cards)
    (hg : init_game shuffle = some g) : GameInv g := by
  have hlen : (shuffle initial_cards).length = 16 := by
    rw [hperm.length_eq]; rfl
  simp only [init_game, prepare_board] at hg
  rw [if_pos (show 4 * 4 ≤ (shuffle initial_cards).length by omega)] at hg
  simp only [Option.some.injEq] at hg
  rw [List.take_of_length_le
    (show (shuffle initial_cards).length ≤ 4 * 4 by omega)] at hg
  subst hg
  refine ⟨rfl, rfl, ?_, ?_, ?_, ?_⟩
  · dsimp only
    rw [List.map_map]
    have hcomp : ((fun c : Card => c.card) ∘
        (fun v => ({ card := v, flipped := false, matched := false } : Card)))
        = fun v => v := rfl
    rw [hcomp, List.map_id']
    exact hperm
  · dsimp only
    intro c hc hcm
    obtain ⟨v, -, rfl⟩ := List.mem_map.mp hc
    simp at hcm
  · dsimp only [matched_count]
    rw [List.countP_eq_zero.mpr]
    intro a ha
    obtain ⟨v, -, rfl⟩ := List.mem_map.mp ha
    simp
  · dsimp only
    have hne :
        List.map (fun v => ({ card := v, flipped := false, matched := false } : Card))
          (shuffle initial_cards) ≠ [] := by
      intro hnil
      have hl := congrArg List.length hnil
      rw [List.length_map, hlen] at hl
      simp at hl
    symm
    rw [Bool.eq_false_iff]
    intro hall
    rw [List.all_eq_true] at hall
    obtain ⟨x, hx⟩ := List.exists_mem_of_ne_nil _ hne
    have hxm := hall x hx
    obtain ⟨v, -, rfl⟩ := List.mem_map.mp hx
    simp at hxm

/-- Every reachable state satisfies the invariant. -/
theorem reachable_inv {g : GameData} (h : Reachable g) : GameInv g := by
  induction h with
  | init shuffle g hperm hg => exact init_inv hperm hg
  | step g g' p1 p2 hr hnot hstep ih => exact play_turn_preserves_inv ih hnot hstep

/-- Every entry of the fixed deck occurs in it exactly twice. -/
theorem count_initial : ∀ v ∈ initial_cards, initial_cards.count v = 2 := by
  decide

/-- A completed turn never changes any cell's card value. -/
theorem play_turn_board_values {g g' : GameData} {p1 p2 : Nat × Nat}
    (hstep : play_turn g p1 p2 = some g') :
    g'.board.map (fun c => c.card) = g.board.map (fun c => c.card) := by
  obtain ⟨c1, c2, hc1, hf1, hc2, hf2, hne, hcase⟩ := play_turn_success hstep
  rcases hcase with ⟨hcard, rfl⟩ | ⟨hcard, rfl⟩
  · have h2read : (g.board.set (p1.1 * g.columns + p1.2)
        { card := c1.card, flipped := true,
          matched := true })[p2.1 * g.columns + p2.2]? = some c2 := by
      rw [List.getElem?_set_ne hne]; exact hc2
    obtain ⟨-, -, uboard, -, -, -, -⟩ :=
      update_score_spec { g with
        board := (g.board.set (p1.1 * g.columns + p1.2)
            { card := c1.card, flipped := true, matched := true }).set
          (p2.1 * g.columns + p2.2)
          { card := c2.card, flipped := true, matched := true } }
    obtain ⟨-, -, fboard, -, -, -, -⟩ :=
      finish_turn_spec (update_score { g with
        board := (g.board.set (p1.1 * g.columns + p1.2)
            { card := c1.card, flipped := true, matched := true }).set
          (p2.1 * g.columns + p2.2)
          { card := c2.card, flipped := true, matched := true } }) p1 p2
    rw [fboard, uboard]
    dsimp only
    rw [map_card_set_of_eq h2read
          (show ({ card := c2.card, flipped := true, matched := true } : Card).card = c2.card from rfl),
        map_card_set_of_eq hc1
          (show ({ card := c1.card, flipped := true, matched := true } : Card).card = c1.card from rfl)]
  · obtain ⟨-, -, fboard, -, -, -, -⟩ := finish_turn_spec g p1 p2
    rw [fboard]

/-- C1: in every reachable state, every symbol value appearing in the board
appears in exactly two cells, and no completed turn (whose operations are
reveal, match, score update, flip back, game-over check) ever changes any
cell's card value — only the `flipped`/`matched` flags mutate. -/
theorem board_pairing_invariant (g : GameData) (h : Reachable g) :
    (∀ v, v ∈ g.board.map (fun c => c.card) →
      (g.board.map (fun c => c.card)).count v = 2) ∧
    (∀ p1 p2 g', play_turn g p1 p2 = some g' →
      g'.board.map (fun c => c.card) = g.board.map (fun c => c.card)) := by
  obtain ⟨-, -, hperm, -, -, -⟩ := reachable_inv h
  refine ⟨?_, ?_⟩
  · intro v hv
    rw [hperm.count_eq]
    exact count_initial v (hperm.mem_iff.mp hv)
  · intro p1 p2 g' hstep
    exact play_turn_board_values hstep

/-- C2: starting from a not-yet-over state, `check_game_over` sets the
`game_over` flag to true exactly when every cell's `matched` flag is true,
and never before. -/
theorem check_game_over_iff (g : GameData) (h : g.game_over = false) :
    (check_game_over g).game_over = true ↔ ∀ c ∈ g.board, c.matched = true := by
  unfold check_game_over
  split
  · rename_i hall
    rw [List.all_eq_true] at hall
    constructor
    · intro _
      exact hall
    · intro _
      rfl
  · rename_i hall
    rw [List.all_eq_true] at hall
    rw [h]
    simp only [Bool.false_eq_true, false_iff]
    intro hf
    exact hall hf

/-- C3: in every reachable state, twice the sum of the two players' scores is
the number of matched cells (i.e. the score sum equals the number of matched
pairs found so far), and the sum never exceeds `rows*columns/2`. -/
theorem score_sum_invariant (g : GameData) (h : Reachable g) :
    2 * (g.score.player1 + g.score.player2) = matched_count g ∧
    g.score.player1 + g.score.player2 ≤ g.rows * g.columns / 2 := by
  obtain ⟨hr, hc, hperm, -, hs, -⟩ := reachable_inv h
  refine ⟨hs, ?_⟩
  have hlen : g.board.length = 16 := by
    have hl := hperm.length_eq
    rw [List.length_map] at hl
    rw [hl]
    rfl
  have hcnt : matched_count g ≤ 16 := by
    unfold matched_count
    calc g.board.countP (fun c => c.matched) ≤ g.board.length :=
          List.countP_le_length _
    _ = 16 := hlen
  rw [hr, hc]
  omega

/-- C4: after a completed turn, if the game is not over the current player has
switched to the other identifier; if the game has just ended the current
player is left unchanged. -/
theorem turn_alternation {g g' : GameData} {p1 p2 : Nat × Nat}
    (h : play_turn g p1 p2 = some g') :
    (g'.game_over = false → g'.turn = switch_turn g.turn) ∧
    (g'.game_over = true → g'.turn = g.turn) := by
  obtain ⟨c1, c2, hc1, hf1, hc2, hf2, hne, hcase⟩ := play_turn_success h
  rcases hcase with ⟨hcard, rfl⟩ | ⟨hcard, rfl⟩
  · obtain ⟨-, -, -, uturn, -, -, -⟩ :=
      update_score_spec { g with
        board := (g.board.set (p1.1 * g.columns + p1.2)
            { card := c1.card, flipped := true, matched := true }).set
          (p2.1 * g.columns + p2.2)
          { card := c2.card, flipped := true, matched := true } }
    obtain ⟨-, -, -, -, fgo, fturn, -⟩ :=
      finish_turn_spec (update_score { g with
        board := (g.board.set (p1.1 * g.columns + p1.2)
            { card := c1.card, flipped := true, matched := true }).set
          (p2.1 * g.columns + p2.2)
          { card := c2.card, flipped := true, matched := true } }) p1 p2
    rw [fturn, ← fgo, uturn]
    constructor
    · intro hno
      rw [hno]
      simp
    · intro hyes
      rw [hyes]
      simp
  · obtain ⟨-, -, -, -, fgo, fturn, -⟩ := finish_turn_spec g p1 p2
    rw [fturn, ← fgo]
    constructor
    · intro hno
      rw [hno]
      simp
    · intro hyes
      rw [hyes]
      simp

/-- C5: in every reachable state, a matched cell is also revealed. -/
theorem matched_implies_revealed (g : GameData) (h : Reachable g) :
    ∀ c ∈ g.board, c.matched = true → c.flipped = true :=
  (reachable_inv h).2.2.2.1

/-- C6: a reveal attempt at a cell whose `flipped` flag is already true (and
which is not matched) is rejected and leaves the whole state unchanged — the
turn is not consumed. -/
theorem reveal_already_revealed_no_change (g : GameData) (p : Nat × Nat)
    (c : Card) (hc : g.board[p.1 * g.columns + p.2]? = some c)
    (hrev : c.flipped = true) (_hunm : c.matched = false) :
    get_valid_card g p = (g, false) := by
  unfold get_valid_card
  split
  · simp [hc, hrev]
  · rfl

/-- C7 (amended): once the first pick at `p` has succeeded, picking the same
position again is rejected (the cell is now revealed) with no further
mutation. -/
theorem second_pick_same_position_rejected {g g1 : GameData} {p : Nat × Nat}
    (h : get_valid_card g p = (g1, true)) :
    get_valid_card g1 p = (g1, false) := by
  obtain ⟨c, hrow, hcol, hc, hf, rfl⟩ := get_valid_card_success h
  have hlt : p.1 * g.columns + p.2 < g.board.length :=
    (List.getElem?_eq_some.mp hc).1
  unfold get_valid_card
  dsimp only
  rw [if_pos ⟨hrow, hcol⟩, List.getElem?_set_self hlt]
  simp

/-- C8 (amended): `flip_back_cards` performs no matched-card guard — it
unconditionally clears the `flipped` flag of both addressed cells, whatever
their `matched` flags are. -/
theorem flip_back_unconditional {g g' : GameData} {p1 p2 : Nat × Nat}
    {c1' c2' : Card} (h : flip_back_cards g p1 p2 = some g')
    (h1 : g'.board[p1.1 * g.columns + p1.2]? = some c1')
    (h2 : g'.board[p2.1 * g.columns + p2.2]? = some c2') :
    c1'.flipped = false ∧ c2'.flipped = false := by
  unfold flip_back_cards at h
  split at h
  · rename_i c1 hc1
    split at h
    · rename_i c2 hc2
      simp only [Option.some.injEq] at h
      subst h
      dsimp only at h1 h2
      have hlt2 := (List.getElem?_eq_some.mp hc2).1
      by_cases he : p1.1 * g.columns + p1.2 = p2.1 * g.columns + p2.2
      · rw [he] at h1
        rw [List.getElem?_set_self (by simpa using hlt2)] at h1
        rw [List.getElem?_set_self hlt2] at h2
        simp only [Option.some.injEq] at h1 h2
        subst h1
        subst h2
        exact ⟨rfl, rfl⟩
      · have hlt1 := (List.getElem?_eq_some.mp hc1).1
        rw [List.getElem?_set_ne (Ne.symm he),
          List.getElem?_set_self hlt1] at h1
        rw [List.getElem?_set_self hlt2] at h2
        simp only [Option.some.injEq] at h1 h2
        subst h1
        subst h2
        exact ⟨rfl, rfl⟩
    · simp at h
  · simp at h

/-- C9 (amended): board construction performs no card-count check — it fails
(Python `IndexError`) exactly when the shuffled symbol sequence has fewer
than `rows*columns` entries; surplus entries are silently ignored.  On
success it assigns the first `rows*columns` shuffled symbols one per cell in
row-major order, every card initially `flipped = false`, `matched = false`. -/
theorem prepare_board_result (shuffle : List Char → List Char)
    (rows columns : Nat) (cards : List Char) :
    ((prepare_board shuffle rows columns cards).2 = none ↔
      (shuffle cards).length < rows * columns) ∧
    (∀ b, (prepare_board shuffle rows columns cards).2 = some b →
      b = ((shuffle cards).take (rows * columns)).map
        (fun v => { card := v, flipped := false, matched := false })) := by
  by_cases hle : rows * columns ≤ (shuffle cards).length
  · constructor
    · simp only [prepare_board, if_pos hle]
      constructor
      · intro hx
        exact absurd hx (by simp)
      · intro hx
        omega
    · intro b hb
      simp only [prepare_board, if_pos hle, Option.some.injEq] at hb
      exact hb.symm
  · constructor
    · simp only [prepare_board, if_neg hle]
      constructor
      · intro _
        omega
      · intro _
        trivial
    · intro b hb
      simp only [prepare_board, if_neg hle] at hb
      exact absurd hb (by simp)

/-- C10: `prepare_board` shuffles the caller's card list in place — after the
call the caller's list is the permuted list, and the board's cells hold
exactly its elements in row-major reading order. -/
theorem prepare_board_shuffle_effect (shuffle : List Char → List Char)
    (rows columns : Nat) (cards : List Char) (b : List Card)
    (hperm : (shuffle cards).Perm cards)
    (hlen : cards.length = rows * columns)
    (hb : (prepare_board shuffle rows columns cards).2 = some b) :
    (prepare_board shuffle rows columns cards).1 = shuffle cards ∧
    ((prepare_board shuffle rows columns cards).1).Perm cards ∧
    b.map (fun c => c.card) = (prepare_board shuffle rows columns cards).1 := by
  refine ⟨rfl, hperm, ?_⟩
  have hsl : (shuffle cards).length = rows * columns := by
    rw [hperm.length_eq, hlen]
  simp only [prepare_board, if_pos (show rows * columns ≤ (shuffle cards).length by omega),
    Option.some.injEq] at hb
  subst hb
  rw [List.take_of_length_le (show (shuffle cards).length ≤ rows * columns by omega),
    List.map_map]
  have hcomp : ((fun c : Card => c.card) ∘
      (fun v => ({ card := v, flipped := false, matched := false } : Card)))
      = fun v => v := rfl
  rw [hcomp, List.map_id']
  rfl

/-! ### Concrete states for witnesses and counterexamples -/

/-- The mid-turn state after one successful pick at `(0,0)` on `demo_game`. -/
def demo_revealed : GameData := (get_valid_card demo_game (0, 0)).1

/-- The state after one completed (matching) turn `(0,0)/(0,1)` on
`demo_game`. -/
def demo_after_turn : GameData :=
  (play_turn demo_game (0, 0) (0, 1)).getD demo_game

/-- A state whose first two cells are matched and revealed. -/
def matched_demo : GameData :=
  { rows := 4, columns := 4, score := { player1 := 1, player2 := 0 },
    turn := Player.player2, game_over := false,
    board := (demo_game.board.set 0
        { card := 'A', flipped := true, matched := true }).set 1
      { card := 'A', flipped := true, matched := true },
    move_history := [((0, 0), (0, 1))] }

/-- A state in which every cell is matched but `game_over` not yet set. -/
def full_demo : GameData :=
  { rows := 4, columns := 4, score := { player1 := 4, player2 := 4 },
    turn := Player.player2, game_over := false,
    board := initial_cards.map
      (fun v => { card := v, flipped := true, matched := true }),
    move_history := [] }

/-- C7 counterexample: with the first pick of the turn already accepted at
`(0,0)`, the repeated pick of `(0,0)` is indeed rejected — but at the point
of rejection the board differs from the pre-turn board (the first reveal has
already set the cell's `flipped` flag), so the rejection does NOT happen
"before either reveal call has mutated the board". -/
theorem duplicate_pick_counterexample :
    (get_valid_card demo_game (0, 0)).2 = true ∧
    (get_valid_card demo_game (0, 0)).1.board ≠ demo_game.board ∧
    get_valid_card (get_valid_card demo_game (0, 0)).1 (0, 0) =
      ((get_valid_card demo_game (0, 0)).1, false) := by decide

/-- C8 counterexample: `flip_back_cards` applied to a matched (and revealed)
card does not fail — it resets the card's `flipped` flag to false while
`matched` stays true. -/
theorem flip_back_matched_counterexample :
    matched_demo.board[0]? =
      some { card := 'A', flipped := true, matched := true } ∧
    (flip_back_cards matched_demo (0, 0) (0, 1)).map (fun g => g.board[0]?) =
      some (some { card := 'A', flipped := false, matched := true }) := by
  decide

/-- C9 counterexample: a symbol list of length 3 on a 1×2 board (length
different from `rows*columns`) does not make construction fail — the board
is built from the first two symbols and the surplus is ignored. -/
theorem prepare_board_no_length_check :
    (prepare_board id 1 2 ['A', 'B', 'C']).2 =
      some [{ card := 'A', flipped := false, matched := false },
            { card := 'B', flipped := false, matched := false }] := by decide

/-! ### Witnesses -/

/-- Witness for C1 at the identity-shuffle initial state. -/
theorem board_pairing_witness :
    (demo_game.board.map (fun c => c.card)).count 'A' = 2 :=
  (board_pairing_invariant demo_game
    (Reachable.init id demo_game (by decide) (by decide))).1 'A' (by decide)

/-- Witness for C2 on a fully matched board. -/
theorem check_game_over_witness : (check_game_over full_demo).game_over = true :=
  (check_game_over_iff full_demo (by decide)).mpr (by decide)

/-- Witness for C3 at the identity-shuffle initial state. -/
theorem score_sum_witness :
    2 * (demo_game.score.player1 + demo_game.score.player2) =
      matched_count demo_game ∧
    demo_game.score.player1 + demo_game.score.player2 ≤
      demo_game.rows * demo_game.columns / 2 :=
  score_sum_invariant demo_game
    (Reachable.init id demo_game (by decide) (by decide))

/-- Witness for C4: after the matching turn `(0,0)/(0,1)` the game is not
over and the turn has switched. -/
theorem turn_alternation_witness :
    demo_after_turn.turn = switch_turn demo_game.turn :=
  (turn_alternation (show play_turn demo_game (0, 0) (0, 1) =
    some demo_after_turn by decide)).1 (by decide)

/-- Witness for C5 at the state reached after one matching turn. -/
theorem matched_implies_revealed_witness :
    ({ card := 'A', flipped := true, matched := true } : Card).flipped = true :=
  matched_implies_revealed demo_after_turn
    (Reachable.step demo_game demo_after_turn (0, 0) (0, 1)
      (Reachable.init id demo_game (by decide) (by decide))
      (by decide) (by decide))
    { card := 'A', flipped := true, matched := true } (by decide) (by decide)

/-- Witness for C6: re-picking the revealed unmatched cell `(0,0)` is
rejected with no state change. -/
theorem reveal_already_revealed_witness :
    get_valid_card demo_revealed (0, 0) = (demo_revealed, false) :=
  reveal_already_revealed_no_change demo_revealed (0, 0)
    { card := 'A', flipped := true, matched := false }
    (by decide) (by decide) (by decide)

/-- Witness for the amended C7 at the concrete mid-turn state. -/
theorem second_pick_witness :
    get_valid_card demo_revealed (0, 0) = (demo_revealed, false) :=
  @second_pick_same_position_rejected demo_game demo_revealed (0, 0) (by decide)

/-- Witness for the amended C8 on a matched pair of cells. -/
theorem flip_back_unconditional_witness :
    ({ card := 'A', flipped := false, matched := true } : Card).flipped = false ∧
    ({ card := 'A', flipped := false, matched := true } : Card).flipped = false :=
  @flip_back_unconditional matched_demo
    ((flip_back_cards matched_demo (0, 0) (0, 1)).getD matched_demo)
    (0, 0) (0, 1)
    { card := 'A', flipped := false, matched := true }
    { card := 'A', flipped := false, matched := true }
    (by decide) (by decide) (by decide)

/-- Witness for the amended C9 at a concrete oversized symbol list. -/
theorem prepare_board_result_witness :
    [({ card := 'A', flipped := false, matched := false } : Card),
     { card := 'B', flipped := false, matched := false }] =
      ((id ['A', 'B', 'C']).take (1 * 2)).map
        (fun v => { card := v, flipped := false, matched := false }) :=
  (prepare_board_result id 1 2 ['A', 'B', 'C']).2
    [{ card := 'A', flipped := false, matched := false },
     { card := 'B', flipped := false, matched := false }] (by decide)

/-- Witness for C10 with the non-trivial shuffle `List.reverse`. -/
theorem prepare_board_shuffle_witness :
    (prepare_board List.reverse 1 2 ['A', 'B']).1 = List.reverse ['A', 'B'] ∧
    ((prepare_board List.reverse 1 2 ['A', 'B']).1).Perm ['A', 'B'] ∧
    ([({ card := 'B', flipped := false, matched := false } : Card),
      { card := 'A', flipped := false, matched := false }]).map
        (fun c => c.card) =
      (prepare_board List.reverse 1 2 ['A', 'B']).1 :=
  prepare_board_shuffle_effect List.reverse 1 2 ['A', 'B']
    [{ card := 'B', flipped := false, matched := false },
     { card := 'A', flipped := false, matched := false }]
    (by decide) (by decide) (by decide)
